import Mathlib

/-!
Verification of the gLauncher launch pipeline against its specification.

The Rust sources are shallowly embedded: pure functions become Lean
functions, stateful code threads an explicit file-system state, network
calls take their responses as parameters, and `cfg!`-resolved host facts
(operating system, architecture) become explicit parameters.  Machine
strings are Lean `String`s (lists of characters); SHA-1 itself is kept
abstract as a hash-function parameter.
-/

namespace GLauncher

/-! ## String primitives mirroring the Rust `str` operations used. -/

/-- `pat.isPrefixOf l || ...` scan: Rust `str::contains` for a substring
pattern, on character lists. -/
def hasSubChars (pat : List Char) : List Char → Bool
  | [] => pat.isEmpty
  | c :: rest => pat.isPrefixOf (c :: rest) || hasSubChars pat rest

/-- Rust `str::contains(pattern)` for a string pattern. -/
def containsSub (s pat : String) : Bool :=
  hasSubChars pat.data s.data

/-- Rust `str::starts_with(pattern)`. -/
def strStartsWith (s pat : String) : Bool :=
  pat.data.isPrefixOf s.data

/-- Rust `str::replace`: replace every non-overlapping occurrence of `pat`,
scanning left to right.  Each step consumes at least one character, so a
fuel of the input's length is enough; the recursion is on the fuel so that
the definition reduces definitionally.  (All patterns in the embedded code
are non-empty; for an empty pattern this model is the identity.) -/
def replaceChars (pat rep : List Char) : Nat → List Char → List Char
  | 0, l => l
  | _ + 1, [] => []
  | fuel + 1, c :: rest =>
    if pat ≠ [] ∧ pat.isPrefixOf (c :: rest) then
      rep ++ replaceChars pat rep fuel (rest.drop (pat.length - 1))
    else
      c :: replaceChars pat rep fuel rest

/-- Rust `str::replace` on `String`. -/
def replaceAll (s pat rep : String) : String :=
  String.mk (replaceChars pat.data rep.data s.data.length s.data)

/-- Rust `str::split_whitespace` (empty tokens are never produced). -/
def splitWsChars : List Char → List Char → List (List Char)
  | [], acc => if acc.isEmpty then [] else [acc.reverse]
  | c :: cs, acc =>
    if c.isWhitespace then
      if acc.isEmpty then splitWsChars cs [] else acc.reverse :: splitWsChars cs []
    else
      splitWsChars cs (c :: acc)

/-- Rust `str::split_whitespace` on `String`. -/
def splitWhitespaceStr (s : String) : List String :=
  (splitWsChars s.data []).map String.mk

/-- Rust slicing `&s[..2]`: defined only when the string has at least two
characters; `none` models the panic on a shorter string. -/
def slice2 (s : String) : Option String :=
  if 2 ≤ s.length then some (String.mk (s.data.take 2)) else none

/-- Rust `str::split(sep)` for a character separator (an empty input
yields one empty piece, like Rust's). -/
def splitOnCharAux (sep : Char) : List Char → List Char → List (List Char)
  | [], acc => [acc.reverse]
  | c :: cs, acc =>
    if c = sep then acc.reverse :: splitOnCharAux sep cs []
    else splitOnCharAux sep cs (c :: acc)

/-- Rust `str::split(sep)` on `String`. -/
def splitOnChar (s : String) (sep : Char) : List String :=
  (splitOnCharAux sep s.data []).map String.mk

/-! ## Data model (`src/core/version/details.rs`). -/

/-- Host fingerprint.  The Rust code resolves `cfg!(target_os)` /
`cfg!(target_arch)` at compile time to one of the strings compared below;
the embedding passes them explicitly. -/
structure Host where
  os : String
  arch : String
deriving DecidableEq, Repr

structure OsRule where
  name : Option String
  version : Option String
  arch : Option String
deriving DecidableEq, Repr

structure Rule where
  action : String
  os : Option OsRule
  features : Option (List (String × Bool))
deriving DecidableEq, Repr

structure Artifact where
  path : String
  sha1 : String
  size : Nat
  url : String
deriving DecidableEq, Repr

structure LibraryDownloads where
  artifact : Option Artifact
  classifiers : Option (List (String × Artifact))
deriving DecidableEq, Repr

structure ExtractRule where
  exclude : Option (List String)
deriving DecidableEq, Repr

structure Library where
  name : String
  downloads : Option LibraryDownloads
  url : Option String
  rules : Option (List Rule)
  natives : Option (List (String × String))
  extract : Option ExtractRule
deriving DecidableEq, Repr

/-- `OsRule::matches_current`: every specified field must equal the host's
(the `version` field is never inspected by the code). -/
def OsRule.matches_current (host : Host) (r : OsRule) : Bool :=
  (match r.name with
   | none => true
   | some n => n == host.os) &&
  (match r.arch with
   | none => true
   | some a => a == host.arch)

/-- `Rule::is_allowed`: the `features` field is never inspected;
`allow` requires the os clause to match, `disallow` requires it not to
match, any other action yields `true`. -/
def Rule.is_allowed (host : Host) (r : Rule) : Bool :=
  let os_matches := match r.os with
    | none => true
    | some os => os.matches_current host
  if r.action == "allow" then os_matches
  else if r.action == "disallow" then !os_matches
  else true

/-- `Library::should_include`: no rules ⇒ include; otherwise every rule
must be `is_allowed`. -/
def Library.should_include (host : Host) (lib : Library) : Bool :=
  match lib.rules with
  | none => true
  | some rules => rules.all (Rule.is_allowed host)

/-! ### The spec's rule semantics (for comparison with the code).

Modelled from the spec's four-clause rule semantics, to be compared with
`Library.should_include`: a rule carrying `features` never matches; an os
rule matches iff every specified field equals the host's; a matching
`allow` contributes allow and a matching `disallow` contributes deny (a
later matching rule overrides an earlier one); no matching rule ⇒ deny;
empty or absent rule list ⇒ allow. -/

/-- Spec semantics: does a rule match the host (empty feature set)? -/
def specRuleMatches (host : Host) (r : Rule) : Bool :=
  r.features.isNone &&
  (match r.os with
   | none => true
   | some os => os.matches_current host)

/-- Spec semantics: verdict of a rule list (`none` = no rule matched). -/
def specRulesVerdict (host : Host) (rules : List Rule) : Option Bool :=
  rules.foldl
    (fun acc r => if specRuleMatches host r then some (r.action == "allow") else acc)
    none

/-- Spec semantics: library inclusion. -/
def specIncluded (host : Host) (lib : Library) : Bool :=
  match lib.rules with
  | none => true
  | some [] => true
  | some rules => (specRulesVerdict host rules).getD false

/-- A rule's `features` never influence `Rule.is_allowed`. -/
def Rule.stripFeatures (r : Rule) : Rule :=
  { r with features := none }

/-- Logical characterization of a single code rule check. -/
def RuleHolds (host : Host) (r : Rule) : Prop :=
  (r.action = "allow" →
    (match r.os with | none => true | some os => os.matches_current host) = true) ∧
  (r.action = "disallow" →
    (match r.os with | none => true | some os => os.matches_current host) = false)

instance (host : Host) (r : Rule) : Decidable (RuleHolds host r) := by
  unfold RuleHolds
  infer_instance

/-! ## Version descriptor (`src/core/version/details.rs`, continued). -/

/-- The `value` of a conditional argument: string or list of strings. -/
inductive StringOrVec where
  | Single (s : String)
  | Multiple (vs : List String)
deriving DecidableEq, Repr

/-- Modern argument entry: a plain string or a rule-conditioned value. -/
inductive ArgumentValue where
  | Simple (s : String)
  | Conditional (rules : List Rule) (value : StringOrVec)
deriving DecidableEq, Repr

structure Arguments where
  game : List ArgumentValue
  jvm : List ArgumentValue
deriving DecidableEq, Repr

structure AssetIndexInfo where
  id : String
  sha1 : String
  size : Nat
  total_size : Option Nat
  url : String
deriving DecidableEq, Repr

structure DownloadInfo where
  sha1 : String
  size : Nat
  url : String
deriving DecidableEq, Repr

structure Downloads where
  client : Option DownloadInfo
  server : Option DownloadInfo
deriving DecidableEq, Repr

structure JavaVersion where
  component : String
  major_version : Nat
deriving DecidableEq, Repr

structure VersionDetails where
  id : String
  version_type : String
  main_class : String
  minecraft_arguments : Option String
  arguments : Option Arguments
  libraries : List Library
  asset_index : AssetIndexInfo
  downloads : Downloads
  java_version : Option JavaVersion
  inherits_from : Option String
deriving DecidableEq, Repr

/-! ## Launch builder: game arguments (`src/core/launch/mod.rs`). -/

/-- The fields of the instance record the launch builder reads. -/
structure InstanceInfo where
  name : String
  version : String
deriving DecidableEq, Repr

structure MinecraftProfile where
  id : String
  name : String
deriving DecidableEq, Repr

structure Account where
  profile : MinecraftProfile
  ms_refresh_token : String
  mc_access_token : String
  is_active : Bool
deriving DecidableEq, Repr

/-- `Launcher::replace_placeholders` (game-argument placeholders). -/
def replace_placeholders (assets_dir : String) (inst : InstanceInfo)
    (details : VersionDetails) (account : Account) (game_dir : String)
    (arg : String) : String :=
  let s := replaceAll arg "$\x7bauth_player_name\x7d" account.profile.name
  let s := replaceAll s "$\x7bversion_name\x7d" inst.version
  let s := replaceAll s "$\x7bgame_directory\x7d" game_dir
  let s := replaceAll s "$\x7bassets_root\x7d" assets_dir
  let s := replaceAll s "$\x7bassets_index_name\x7d" details.asset_index.id
  let s := replaceAll s "$\x7bauth_uuid\x7d" account.profile.id
  let s := replaceAll s "$\x7bauth_access_token\x7d" account.mc_access_token
  let s := replaceAll s "$\x7buser_type\x7d" "msa"
  let s := replaceAll s "$\x7bversion_type\x7d" details.version_type
  let s := replaceAll s "$\x7bclientid\x7d" ""
  let s := replaceAll s "$\x7bauth_xuid\x7d" ""
  let s := replaceAll s "$\x7bresolution_width\x7d" "854"
  let s := replaceAll s "$\x7bresolution_height\x7d" "480"
  let s := replaceAll s "$\x7bquickPlayPath\x7d" ""
  let s := replaceAll s "$\x7bquickPlaySingleplayer\x7d" ""
  let s := replaceAll s "$\x7bquickPlayMultiplayer\x7d" ""
  let s := replaceAll s "$\x7bquickPlayRealms\x7d" ""
  s

/-- `Launcher::parse_legacy_args`: whitespace-split, then per-token
substitution of the legacy placeholder set.  No filtering happens here or
after (the legacy branch of `build_game_args` returns this directly). -/
def parse_legacy_args (assets_dir : String) (inst : InstanceInfo)
    (account : Account) (game_dir : String) (args_str : String) : List String :=
  (splitWhitespaceStr args_str).map fun s =>
    let s := replaceAll s "$\x7bauth_player_name\x7d" account.profile.name
    let s := replaceAll s "$\x7bversion_name\x7d" inst.version
    let s := replaceAll s "$\x7bgame_directory\x7d" game_dir
    let s := replaceAll s "$\x7bassets_root\x7d" assets_dir
    let s := replaceAll s "$\x7bassets_index_name\x7d" inst.version
    let s := replaceAll s "$\x7bauth_uuid\x7d" account.profile.id
    let s := replaceAll s "$\x7bauth_access_token\x7d" account.mc_access_token
    let s := replaceAll s "$\x7buser_type\x7d" "msa"
    let s := replaceAll s "$\x7bversion_type\x7d" "release"
    s

/-- The unresolved-placeholder marker the filter looks for
(Rust `arg.contains("${")`). -/
def phMark : String := "$\x7b"

/-- The filtering loop at the end of `Launcher::build_game_args`
(modern branch only): drop `--demo`, drop tokens still containing the
placeholder marker, drop empty tokens, and when a `--flag` (without `=`)
precedes an empty or unresolved value, drop the flag together with the
value. -/
def filter_args : List String → List String
  | [] => []
  | a :: rest =>
    if a = "--demo" then filter_args rest
    else if containsSub a phMark then filter_args rest
    else
      match rest with
      | [] => if a = "" then [] else [a]
      | b :: rest2 =>
        if strStartsWith a "--" && !(a.data.contains '=') &&
            (b = "" || containsSub b phMark) then
          filter_args rest2
        else if a = "" then filter_args (b :: rest2)
        else a :: filter_args (b :: rest2)

/-- The raw-argument collection loop of the modern branch of
`Launcher::build_game_args`: substitute plain entries; for conditional
entries, discard any with a feature-conditioned rule, include the rest iff
every rule `is_allowed`. -/
def collect_game_args (host : Host) (repl : String → String) :
    List ArgumentValue → List String
  | [] => []
  | .Simple s :: rest => repl s :: collect_game_args host repl rest
  | .Conditional rules value :: rest =>
    (if !(rules.any fun r => r.features.isSome) && rules.all (Rule.is_allowed host) then
      match value with
      | .Single s => [repl s]
      | .Multiple vs => vs.map repl
    else []) ++ collect_game_args host repl rest

/-- `Launcher::build_game_args`: the legacy branch returns
`parse_legacy_args` unfiltered; the modern branch collects substituted
entries and then filters them. -/
def build_game_args (host : Host) (assets_dir : String) (inst : InstanceInfo)
    (details : VersionDetails) (account : Account) (game_dir : String) :
    List String :=
  match details.minecraft_arguments with
  | some mc_args => parse_legacy_args assets_dir inst account game_dir mc_args
  | none =>
    let raw := match details.arguments with
      | none => []
      | some args =>
        collect_game_args host
          (replace_placeholders assets_dir inst details account game_dir)
          args.game
    filter_args raw

/-! ## File-system and HTTP model.

Stateful code threads an explicit file store; a network call takes its
response (or transport failure) as a parameter.  SHA-1 is kept abstract as
a hash-function parameter `sha1fn`. -/

/-- File contents as byte sequences. -/
abbrev Bytes := List Nat

/-- The file store: an association list from path to contents (the most
recent binding wins). -/
abbrev FileStore := List (String × Bytes)

/-- Read a file (`none` = the file does not exist). -/
def fsRead (fs : FileStore) (p : String) : Option Bytes :=
  fs.lookup p

/-- Write (or overwrite) a file. -/
def fsWrite (fs : FileStore) (p : String) (b : Bytes) : FileStore :=
  (p, b) :: fs

/-- Delete a file (`std::fs::remove_file`). -/
def fsRemove (fs : FileStore) (p : String) : FileStore :=
  fs.filter fun e => !(e.1 == p)

/-- An HTTP response: status code and body. -/
structure HttpResponse where
  status : Nat
  body : Bytes
deriving DecidableEq, Repr

/-- The outcome of `reqwest::get`: a response (of any status) or a
transport failure. -/
inductive FetchResult where
  | success (resp : HttpResponse)
  | transportError (msg : String)
deriving DecidableEq, Repr

/-- Error taxonomy of the download paths (anyhow errors, by kind). -/
inductive DlErr where
  | network (msg : String)
  | checksumMismatch (path : String)
  | other (msg : String)
deriving DecidableEq, Repr

/-- `util::download::download_file` (`src/util/download.rs` lines 9–20):
propagate a transport error; otherwise write the response body to `dest`.
The HTTP status is never inspected. -/
def download_file (fetch : FetchResult) (dest : String) (fs : FileStore) :
    Except DlErr Unit × FileStore :=
  match fetch with
  | .transportError m => (.error (.network m), fs)
  | .success resp => (.ok (), fsWrite fs dest resp.body)

/-- `Launcher::ensure_version_jar` (`src/core/launch/mod.rs` lines
170–194): return early if the JAR exists; otherwise write the response
body.  Neither the HTTP status nor the client SHA-1 is checked. -/
def ensure_version_jar (fetch : FetchResult) (versions_dir : String)
    (details : VersionDetails) (fs : FileStore) :
    Except DlErr String × FileStore :=
  let jar_path := versions_dir ++ "/" ++ details.id ++ "/" ++ details.id ++ ".jar"
  if (fsRead fs jar_path).isSome then (.ok jar_path, fs)
  else
    match details.downloads.client with
    | none => (.error (.other "No client download info"), fs)
    | some _ =>
      match fetch with
      | .transportError m => (.error (.network m), fs)
      | .success resp => (.ok jar_path, fsWrite fs jar_path resp.body)

/-- `LibraryManager::download_library` (`src/core/library/mod.rs` lines
103–126): write the fetched body to the artifact path, then — only when
the artifact's `sha1` is non-empty — verify the just-written file's SHA-1
and on mismatch delete the file and fail.  The HTTP status is never
inspected. -/
def download_library (sha1fn : Bytes → String) (fetch : FetchResult)
    (libraries_dir : String) (a : Artifact) (fs : FileStore) :
    Except DlErr Unit × FileStore :=
  let dest := libraries_dir ++ "/" ++ a.path
  match fetch with
  | .transportError m => (.error (.network m), fs)
  | .success resp =>
    let fs1 := fsWrite fs dest resp.body
    if a.sha1 ≠ "" ∧ sha1fn resp.body ≠ a.sha1 then
      (.error (.checksumMismatch dest), fsRemove fs1 dest)
    else
      (.ok (), fs1)

/-- The per-job result of a library download is independent of the file
store; this mirrors the future body in `LibraryManager::download_all`. -/
def library_job_result (sha1fn : Bytes → String) (fetch : FetchResult)
    (libraries_dir : String) (a : Artifact) : Except DlErr Unit :=
  (download_library sha1fn fetch libraries_dir a []).1

/-- `LibraryManager::download_all` (`src/core/library/mod.rs` lines
130–211): run every job (collecting all results), then return the first
error if any job failed.  A job is an artifact together with the response
its download will receive. -/
def library_download_all (sha1fn : Bytes → String) (libraries_dir : String)
    (jobs : List (Artifact × FetchResult)) (fs : FileStore) :
    Except DlErr Unit × FileStore :=
  match jobs with
  | [] => (.ok (), fs)
  | (a, fetch) :: rest =>
    let r := download_library sha1fn fetch libraries_dir a fs
    let rs := library_download_all sha1fn libraries_dir rest r.2
    (match r.1 with
     | .error e => .error e
     | .ok _ => rs.1, rs.2)

/-! ## Asset resolver (`src/core/asset/mod.rs`,
`src/core/version/details.rs` lines 296–310). -/

structure AssetObject where
  hash : String
  size : Nat
deriving DecidableEq, Repr

/-- `AssetObject::get_path`: `&hash[..2]` slices the first two characters
unchecked; `none` models the panic on a shorter hash. -/
def AssetObject.getPath (o : AssetObject) : Option String :=
  (slice2 o.hash).map fun pre => pre ++ "/" ++ o.hash

/-- `AssetObject::get_url`: same unchecked slice. -/
def AssetObject.getUrl (o : AssetObject) : Option String :=
  (slice2 o.hash).map fun pre =>
    "https://resources.download.minecraft.net/" ++ pre ++ "/" ++ o.hash

/-- `AssetManager::get_object_path` (`src/core/asset/mod.rs` lines 41–43):
joins the objects directory with `AssetObject::get_path`. -/
def get_object_path (assets_dir : String) (o : AssetObject) : Option String :=
  o.getPath.map fun p => assets_dir ++ "/objects/" ++ p

/-- One asset job inside `AssetManager::download_all` (lines 161–198):
write the fetched body at the two-level hash path; verify SHA-1 only when
`size > 0`, deleting the file and failing the job on mismatch.  `none`
models the panic of the unchecked `&hash[..2]` slice. -/
def asset_job_run (sha1fn : Bytes → String) (fetch : FetchResult)
    (objects_dir : String) (o : AssetObject) (fs : FileStore) :
    Option ((Except String Unit) × FileStore) :=
  match slice2 o.hash with
  | none => none
  | some pre =>
    let dest := objects_dir ++ "/" ++ pre ++ "/" ++ o.hash
    match fetch with
    | .transportError m => some (.error ("Failed to download: " ++ m), fs)
    | .success resp =>
      let fs1 := fsWrite fs dest resp.body
      if o.size > 0 then
        if sha1fn resp.body ≠ o.hash then
          some (.error ("SHA1 mismatch for asset: " ++ o.hash), fsRemove fs1 dest)
        else
          some (.ok (), fs1)
      else
        some (.ok (), fs1)

/-- `AssetManager::download_all` (lines 131–215): run every job; per-job
failures are only logged (never propagated), and the operation returns
success.  `none` models a panic in one of the jobs. -/
def asset_download_all (sha1fn : Bytes → String) (objects_dir : String)
    (jobs : List (AssetObject × FetchResult)) (fs : FileStore) :
    Option ((Except DlErr Unit) × FileStore) :=
  match jobs with
  | [] => some (.ok (), fs)
  | (o, fetch) :: rest =>
    match asset_job_run sha1fn fetch objects_dir o fs with
    | none => none
    | some (_, fs1) => asset_download_all sha1fn objects_dir rest fs1

/-! ## Fabric overlay (`src/core/fabric/mod.rs`). -/

structure FabricLibrary where
  name : String
  url : Option String
deriving DecidableEq, Repr

structure FabricArguments where
  game : List String
  jvm : List String
deriving DecidableEq, Repr

structure FabricProfile where
  id : String
  inherits_from : String
  release_time : String
  time : String
  version_type : String
  main_class : String
  arguments : Option FabricArguments
  libraries : List FabricLibrary
deriving DecidableEq, Repr

/-- The `group:artifact` key of a Maven name (`parts[0]:parts[1]` when the
name splits into at least two `:`-separated parts). -/
def groupArtifactKey (name : String) : Option String :=
  match splitOnChar name ':' with
  | g :: a :: _ => some (g ++ ":" ++ a)
  | _ => none

/-- The conversion of one Fabric library (the closure inside
`FabricManager::convert_libraries`, lines 123–168): synthesize the Maven
path when the name has at least three parts; the artifact's `sha1` is
always empty (Fabric provides none). -/
def convert_library (fl : FabricLibrary) : Library :=
  let path : Option String :=
    match splitOnChar fl.name ':' with
    | g :: a :: v :: _ =>
      some (replaceAll g "." "/" ++ "/" ++ a ++ "/" ++ v ++ "/" ++
        a ++ "-" ++ v ++ ".jar")
    | _ => none
  let url : Option String := fl.url.map fun base =>
    match path with
    | some p => base ++ p
    | none => base
  { name := fl.name
    downloads := path.map fun p =>
      { artifact := some
          { path := p
            sha1 := ""
            size := 0
            url := url.getD ("https://maven.fabricmc.net/" ++ p) }
        classifiers := none }
    url := fl.url
    rules := none
    natives := none
    extract := none }

/-- `FabricManager::convert_libraries` (lines 123–168). -/
def convert_libraries (fabric_libs : List FabricLibrary) : List Library :=
  fabric_libs.map convert_library

/-- The retain predicate of `merge_version_details`: keep a vanilla
library unless its `group:artifact` key is among the profile's keys. -/
def keepVanillaLib (fabric_keys : List String) (lib : Library) : Bool :=
  match groupArtifactKey lib.name with
  | some k => !(fabric_keys.contains k)
  | none => true

/-- `FabricManager::merge_version_details` (lines 193–238): override the
main class, drop vanilla libraries whose `group:artifact` key collides
with a profile library, append the converted profile libraries, and mark
the inheritance. -/
def merge_version_details (vanilla : VersionDetails)
    (fabric_profile : FabricProfile) : VersionDetails :=
  let fabric_libs := convert_libraries fabric_profile.libraries
  let fabric_keys := fabric_libs.filterMap fun l => groupArtifactKey l.name
  { vanilla with
    main_class := fabric_profile.main_class
    libraries := vanilla.libraries.filter (keepVanillaLib fabric_keys) ++ fabric_libs
    inherits_from := some fabric_profile.inherits_from }

/-! ## Java runtime acquirer (`src/core/java/mod.rs`,
`src/core/launch/runner.rs`). -/

/-- `JAVA_REQUIREMENTS`: the static (major version, version prefix)
table, in source order. -/
def JAVA_REQUIREMENTS : List (Nat × String) :=
  [(21, "1.21"), (17, "1.20"), (17, "1.19"), (17, "1.18"), (17, "1.17"), (8, "1.16")]

/-- The scan inside `JavaManager::get_required_version`: first
`starts_with` match wins, default 8. -/
def requiredVersionScan (mc_version : String) : List (Nat × String) → Nat
  | [] => 8
  | (v, pat) :: rest =>
    if strStartsWith mc_version pat then v else requiredVersionScan mc_version rest

/-- `JavaManager::get_required_version` (lines 64–72). -/
def get_required_version (mc_version : String) : Nat :=
  requiredVersionScan mc_version JAVA_REQUIREMENTS

/-- The Java-acquisition stage of `launch_instance_async`
(`src/core/launch/runner.rs` lines 248–260): the required major version
is computed from the instance's Minecraft version alone; the descriptor
(and in particular its `java_version` field) is not consulted. -/
def launch_required_java (inst : InstanceInfo) (_details : VersionDetails) : Nat :=
  get_required_version inst.version

/-- `Launcher::get_java_for_version` (`src/core/launch/mod.rs` lines
149–160): uses the descriptor's `java_version` with default 8 and ignores
the table.  This helper is never called from the launch pipeline. -/
def get_java_for_version (details : VersionDetails) : Nat :=
  (details.java_version.map JavaVersion.major_version).getD 8

/-! ## Device-code polling loop (`src/core/auth/microsoft.rs` lines
122–161). -/

structure MsTokenResponse where
  access_token : String
  refresh_token : String
  expires_in : Nat
deriving DecidableEq, Repr

/-- Terminal failures of the polling loop. -/
inductive AuthFailure where
  | deviceCodeExpired
  | userDeclined
  | authError (e : String)
deriving DecidableEq, Repr

/-- One poll's observation: a 2xx token response, or a non-2xx body with
an optional `error` field. -/
inductive PollResp where
  | success (t : MsTokenResponse)
  | failure (error : Option String)
deriving DecidableEq, Repr

/-- `MicrosoftAuth::poll_for_token`, run against a finite trace of
responses.  Each iteration first sleeps `interval` seconds, then polls.
`authorization_pending` (and a non-2xx body without an `error` field)
continue; `slow_down` sleeps 5 extra seconds and continues; the remaining
errors are terminal.  The result is `none` when the trace is exhausted
with the loop still polling, together with the seconds elapsed. -/
def poll_for_token (interval : Nat) :
    List PollResp → Nat → Option (Except AuthFailure MsTokenResponse) × Nat
  | [], t => (none, t)
  | r :: rest, t =>
    let t1 := t + interval
    match r with
    | .success tok => (some (.ok tok), t1)
    | .failure none => poll_for_token interval rest t1
    | .failure (some e) =>
      if e = "authorization_pending" then poll_for_token interval rest t1
      else if e = "slow_down" then poll_for_token interval rest (t1 + 5)
      else if e = "expired_token" then (some (.error .deviceCodeExpired), t1)
      else if e = "authorization_declined" then (some (.error .userDeclined), t1)
      else (some (.error (.authError e)), t1)

/-! ## Account manager (`src/core/auth/manager.rs`).

The keyring is abstracted away: each operation transforms the in-memory
`AccountsData`, which `save_accounts` persists verbatim, so the persisted
set after an operation is the operation's result. -/

structure AccountsData where
  accounts : List Account
  active_uuid : Option String
deriving DecidableEq, Repr

/-- Number of accounts flagged active. -/
def countActive (d : AccountsData) : Nat :=
  (d.accounts.filter fun a => a.is_active).length

/-- `AccountManager::set_active` (lines 85–98). -/
def set_active (uuid : String) (d : AccountsData) : Except String AccountsData :=
  if d.accounts.any (fun a => a.profile.id == uuid) then
    .ok { accounts := d.accounts.map fun a =>
            { a with is_active := a.profile.id == uuid }
          active_uuid := some uuid }
  else
    .error ("Account not found: " ++ uuid)

/-- `iter_mut().find(..)` update: replace the tokens and profile of the
first account with the given profile id. -/
def updateFirstAccount (acc : Account) : List Account → List Account
  | [] => []
  | a :: rest =>
    if a.profile.id == acc.profile.id then
      { a with
        ms_refresh_token := acc.ms_refresh_token
        mc_access_token := acc.mc_access_token
        profile := acc.profile } :: rest
    else
      a :: updateFirstAccount acc rest

/-- `AccountManager::complete_login` (lines 106–136), with the network
part abstracted: `account` is the result of `authenticate`.  Update the
first existing account with the same id or append; then flag exactly the
accounts with that id active. -/
def complete_login (account : Account) (d : AccountsData) : AccountsData :=
  let accounts1 :=
    if d.accounts.any (fun a => a.profile.id == account.profile.id) then
      updateFirstAccount account d.accounts
    else
      d.accounts ++ [account]
  { accounts := accounts1.map fun a =>
      { a with is_active := a.profile.id == account.profile.id }
    active_uuid := some account.profile.id }

/-- `AccountManager::active_account` (lines 71–76). -/
def active_account (d : AccountsData) : Option Account :=
  d.active_uuid.bind fun uuid => d.accounts.find? fun a => a.profile.id == uuid

/-- `AccountManager::refresh_active` (lines 139–158), with the network
part abstracted: `refreshed` is the result of `refresh_account`.  Tokens
and profile of the first matching account are replaced; `is_active` flags
are untouched. -/
def refresh_active (refreshed : Account) (d : AccountsData) :
    Except String AccountsData :=
  match active_account d with
  | none => .error "No active account"
  | some _ => .ok { d with accounts := updateFirstAccount refreshed d.accounts }

/-- `AccountManager::remove_account` (lines 161–181). -/
def remove_account (uuid : String) (d : AccountsData) :
    Except String AccountsData :=
  let accounts1 := d.accounts.filter fun a => !(a.profile.id == uuid)
  if accounts1.length = d.accounts.length then
    .error ("Account not found: " ++ uuid)
  else if d.active_uuid = some uuid then
    let newActive := accounts1.head?.map fun a => a.profile.id
    let accounts2 :=
      match newActive with
      | some u => accounts1.map fun a => { a with is_active := a.profile.id == u }
      | none => accounts1
    .ok { accounts := accounts2, active_uuid := newActive }
  else
    .ok { accounts := accounts1, active_uuid := d.active_uuid }

/-- `AccountManager::logout_all` (lines 184–194). -/
def logout_all (_d : AccountsData) : AccountsData :=
  { accounts := [], active_uuid := none }

/-! # Theorems

Helper lemmas first, then one theorem per claim (with its witness or
counterexample where applicable). -/

theorem filter_args_nil : filter_args [] = [] := by
  rw [filter_args.eq_def]

theorem filter_args_demo (rest : List String) :
    filter_args ("--demo" :: rest) = filter_args rest := by
  rw [filter_args.eq_def]
  simp

theorem filter_args_ph (a : String) (rest : List String)
    (h1 : ¬a = "--demo") (h2 : containsSub a phMark = true) :
    filter_args (a :: rest) = filter_args rest := by
  rw [filter_args.eq_def]
  simp only [if_neg h1, if_pos h2]

theorem filter_args_one (a : String)
    (h1 : ¬a = "--demo") (h2 : ¬containsSub a phMark = true) :
    filter_args [a] = if a = "" then [] else [a] := by
  rw [filter_args.eq_def]
  simp only [if_neg h1, if_neg h2]

theorem filter_args_two (a b : String) (rest2 : List String)
    (h1 : ¬a = "--demo") (h2 : ¬containsSub a phMark = true) :
    filter_args (a :: b :: rest2) =
      if (strStartsWith a "--" && !a.data.contains '=' &&
          (decide (b = "") || containsSub b phMark)) = true then
        filter_args rest2
      else if a = "" then filter_args (b :: rest2)
      else a :: filter_args (b :: rest2) := by
  rw [filter_args.eq_def]
  simp only [if_neg h1, if_neg h2]

theorem filter_args_mem (l : List String) :
    ∀ a ∈ filter_args l, a ≠ "" ∧ a ≠ "--demo" ∧ containsSub a phMark = false := by
  induction l using filter_args.induct with
  | case1 => simp [filter_args_nil]
  | case2 rest2 ih => simpa [filter_args_demo] using ih
  | case3 b rest2 h1 h2 ih => simpa [filter_args_ph b rest2 h1 h2] using ih
  | case4 h1 h2 => simp [filter_args_one "" h1 h2]
  | case5 b h1 h2 h3 =>
    intro a ha
    rw [filter_args_one b h1 h2, if_neg h3] at ha
    simp only [List.mem_singleton] at ha
    subst ha
    exact ⟨h3, h1, by simpa using h2⟩
  | case6 b h1 h2 b1 rest2 hcond ih =>
    intro a ha
    rw [filter_args_two b b1 rest2 h1 h2, if_pos hcond] at ha
    exact ih a ha
  | case7 b rest2 h1 h2 hcond ih =>
    intro a ha
    rw [filter_args_two "" b rest2 h1 h2, if_neg hcond, if_pos rfl] at ha
    exact ih a ha
  | case8 b h1 h2 b1 rest2 hcond hne ih =>
    intro a ha
    rw [filter_args_two b b1 rest2 h1 h2, if_neg hcond, if_neg hne] at ha
    rcases List.mem_cons.mp ha with rfl | ha2
    · exact ⟨hne, h1, by simpa using h2⟩
    · exact ih a ha2

theorem is_allowed_iff_ruleHolds (host : Host) (r : Rule) :
    r.is_allowed host = true ↔ RuleHolds host r := by
  unfold Rule.is_allowed RuleHolds
  by_cases h1 : r.action = "allow"
  · simp [h1]
  · by_cases h2 : r.action = "disallow"
    · simp [h1, h2]
    · simp [h1, h2]

/-- C1 (amended): on every host, a library is included iff every one of its
rules holds, where an `allow` rule holds iff its os clause matches the
host, a `disallow` rule holds iff its os clause does not match, any other
action always holds, and the `features` field is ignored; an absent rule
list always includes.  (The spec's four-clause semantics — features-rules
never match, unmatched lists default to deny — does not hold on the code;
see the counterexample.) -/
theorem c1_rule_evaluation (host : Host) (lib : Library) :
    lib.should_include host = true ↔
      ∀ rs, lib.rules = some rs → ∀ r ∈ rs, RuleHolds host r := by
  cases hr : lib.rules with
  | none => simp [Library.should_include, hr]
  | some rs =>
    simp only [Library.should_include, hr, List.all_eq_true, Option.some.injEq]
    constructor
    · rintro h rs2 rfl r hrm
      exact (is_allowed_iff_ruleHolds host r).mp (h r hrm)
    · intro h r hrm
      exact (is_allowed_iff_ruleHolds host r).mpr (h rs rfl r hrm)

theorem c1_rule_evaluation_witness :
    Library.should_include ⟨"linux", "x64"⟩
      ⟨"org.lwjgl:lwjgl:3.3.3", none, none,
        some [⟨"allow", some ⟨some "linux", none, none⟩, none⟩], none, none⟩ = true :=
  (c1_rule_evaluation ⟨"linux", "x64"⟩ _).mpr (by
    intro rs h
    simp only [Option.some.injEq] at h
    subst h
    decide)

/-- C1 counterexample: on a linux/x64 host, a library whose single rule is
feature-conditioned is included by the code although the spec's semantics
excludes it, and a library whose only rule is a non-matching `disallow` is
included by the code although the spec's semantics excludes it. -/
theorem c1_spec_semantics_cex :
    (Library.should_include ⟨"linux", "x64"⟩
        ⟨"com.example:feat:1.0", none, none,
          some [⟨"allow", none, some [("has_custom_resolution", true)]⟩], none, none⟩ = true
      ∧ specIncluded ⟨"linux", "x64"⟩
        ⟨"com.example:feat:1.0", none, none,
          some [⟨"allow", none, some [("has_custom_resolution", true)]⟩], none, none⟩ = false)
    ∧ (Library.should_include ⟨"linux", "x64"⟩
        ⟨"com.example:dis:1.0", none, none,
          some [⟨"disallow", some ⟨some "osx", none, none⟩, none⟩], none, none⟩ = true
      ∧ specIncluded ⟨"linux", "x64"⟩
        ⟨"com.example:dis:1.0", none, none,
          some [⟨"disallow", some ⟨some "osx", none, none⟩, none⟩], none, none⟩ = false) := by
  decide

/-- C2 (amended): the game argv of a modern descriptor (no
`minecraft_arguments`) is the filter of the substituted template entries
and contains no empty token, no `--demo` token, and no token containing
the unresolved-placeholder marker; when the filter meets a `--flag`
(without `=`) whose following value token is empty or unresolved, it
drops the flag together with the value and resumes after the pair; the
game argv of a legacy descriptor is exactly the whitespace-split,
per-token substituted legacy string, with no filtering at all. -/
theorem c2_game_args (host : Host) (assets_dir : String) (inst : InstanceInfo)
    (details : VersionDetails) (account : Account) (game_dir : String) :
    (∀ s, details.minecraft_arguments = some s →
      build_game_args host assets_dir inst details account game_dir =
        parse_legacy_args assets_dir inst account game_dir s) ∧
    (details.minecraft_arguments = none →
      build_game_args host assets_dir inst details account game_dir =
        filter_args (match details.arguments with
          | none => []
          | some args =>
            collect_game_args host
              (replace_placeholders assets_dir inst details account game_dir)
              args.game)) ∧
    (details.minecraft_arguments = none →
      ∀ a ∈ build_game_args host assets_dir inst details account game_dir,
        a ≠ "" ∧ a ≠ "--demo" ∧ containsSub a phMark = false) ∧
    (∀ a b rest2, strStartsWith a "--" = true → a.data.contains '=' = false →
      (b = "" ∨ containsSub b phMark = true) →
      a ≠ "--demo" → containsSub a phMark = false →
      filter_args (a :: b :: rest2) = filter_args rest2) := by
  refine ⟨?_, ?_, ?_, ?_⟩
  · intro s hs
    unfold build_game_args
    rw [hs]
  · intro hn
    unfold build_game_args
    rw [hn]
  · intro hn
    unfold build_game_args
    rw [hn]
    exact filter_args_mem _
  · intro a b rest2 h1 h2 h3 h4 h5
    have h2m : '=' ∉ a.data := by simpa using h2
    have hcond : (strStartsWith a "--" && !a.data.contains '=' &&
        (decide (b = "") || containsSub b phMark)) = true := by
      rcases h3 with h3 | h3 <;> simp [h1, h2m, h3]
    rw [filter_args_two a b rest2 h4 (by simp [h5]), if_pos hcond]

theorem c2_game_args_witness :
    ("--username" ≠ "" ∧ "--username" ≠ "--demo" ∧
      containsSub "--username" phMark = false) ∧
    filter_args ["--uuid", "", "--x"] = filter_args ["--x"] := by
  constructor
  · exact (c2_game_args ⟨"linux", "x64"⟩ "/assets" ⟨"i", "1.20.1"⟩
      ⟨"1.20.1", "release", "mc.Main", none,
        some ⟨[.Simple "--username", .Simple "$\x7bauth_player_name\x7d"], []⟩,
        [], ⟨"5", "", 0, none, ""⟩, ⟨none, none⟩, none, none⟩
      ⟨⟨"u", "Alex"⟩, "R", "T", true⟩ "/game").2.2.1 rfl "--username" (by decide)
  · exact (c2_game_args ⟨"linux", "x64"⟩ "/assets" ⟨"i", "1.20.1"⟩
      ⟨"1.20.1", "release", "mc.Main", none,
        some ⟨[.Simple "--username", .Simple "$\x7bauth_player_name\x7d"], []⟩,
        [], ⟨"5", "", 0, none, ""⟩, ⟨none, none⟩, none, none⟩
      ⟨⟨"u", "Alex"⟩, "R", "T", true⟩ "/game").2.2.2 "--uuid" "" ["--x"]
      (by decide) (by decide) (Or.inl rfl) (by decide) (by decide)

/-- C2 counterexample: a legacy descriptor's argv keeps `--demo` and the
unresolved `$\x7buser_properties\x7d` token, so the claimed totality does
not hold on the legacy path. -/
theorem c2_legacy_cex :
    build_game_args ⟨"linux", "x64"⟩ "/assets" ⟨"i", "1.7.10"⟩
      ⟨"1.7.10", "release", "mc.Main",
        some "--username $\x7bauth_player_name\x7d --demo --userProperties $\x7buser_properties\x7d",
        none, [], ⟨"1.7.10", "", 0, none, ""⟩, ⟨none, none⟩, none, none⟩
      ⟨⟨"u", "Alex"⟩, "R", "T", true⟩ "/game"
      = ["--username", "Alex", "--demo", "--userProperties", "$\x7buser_properties\x7d"]
    ∧ containsSub "$\x7buser_properties\x7d" phMark = true := by
  decide

theorem fsRead_write (fs : FileStore) (p : String) (b : Bytes) :
    fsRead (fsWrite fs p b) p = some b := by
  simp [fsRead, fsWrite, List.lookup]

theorem fsRead_remove (fs : FileStore) (p : String) :
    fsRead (fsRemove fs p) p = none := by
  induction fs with
  | nil => rfl
  | cons e rest ih =>
    obtain ⟨k, v⟩ := e
    by_cases h : k = p
    · simpa [fsRemove, List.filter_cons, h] using ih
    · have hpk : (p == k) = false := beq_eq_false_iff_ne.mpr (Ne.symm h)
      have hkp : (!(k == p)) = true := by simp [h]
      rw [fsRemove, List.filter_cons, if_pos hkp]
      show fsRead ((k, v) :: List.filter (fun e => !(e.1 == p)) rest) p = none
      rw [fsRead, List.lookup, hpk]
      exact ih

/-- C3: after a library download whose fetch produced a body, when the
artifact's expected `sha1` is non-empty either the operation succeeds and
the on-disk file's hash equals the expected value, or it fails with a
checksum mismatch and the file has been deleted; when the expected `sha1`
is empty the body is written and no verification is performed (the result
is independent of the hash function). -/
theorem c3_library_sha1 (sha1fn : Bytes → String) (resp : HttpResponse)
    (libraries_dir : String) (a : Artifact) (fs : FileStore) :
    (a.sha1 ≠ "" →
      (∀ u, (download_library sha1fn (.success resp) libraries_dir a fs).1 = .ok u →
        fsRead (download_library sha1fn (.success resp) libraries_dir a fs).2
            (libraries_dir ++ "/" ++ a.path) = some resp.body ∧
          sha1fn resp.body = a.sha1) ∧
      (∀ e, (download_library sha1fn (.success resp) libraries_dir a fs).1 = .error e →
        e = .checksumMismatch (libraries_dir ++ "/" ++ a.path) ∧
          fsRead (download_library sha1fn (.success resp) libraries_dir a fs).2
            (libraries_dir ++ "/" ++ a.path) = none)) ∧
    (a.sha1 = "" →
      (download_library sha1fn (.success resp) libraries_dir a fs).1 = .ok () ∧
        fsRead (download_library sha1fn (.success resp) libraries_dir a fs).2
          (libraries_dir ++ "/" ++ a.path) = some resp.body) := by
  have heq : download_library sha1fn (.success resp) libraries_dir a fs =
      if a.sha1 ≠ "" ∧ sha1fn resp.body ≠ a.sha1 then
        (.error (.checksumMismatch (libraries_dir ++ "/" ++ a.path)),
          fsRemove (fsWrite fs (libraries_dir ++ "/" ++ a.path) resp.body)
            (libraries_dir ++ "/" ++ a.path))
      else
        (.ok (), fsWrite fs (libraries_dir ++ "/" ++ a.path) resp.body) := rfl
  rw [heq]
  by_cases hv : a.sha1 ≠ "" ∧ sha1fn resp.body ≠ a.sha1
  · rw [if_pos hv]
    constructor
    · intro _
      constructor
      · intro u hu
        dsimp only at hu
        exact nomatch hu
      · intro e he
        dsimp only at he
        cases he
        exact ⟨rfl, fsRead_remove _ _⟩
    · intro h0
      exact absurd h0 hv.1
  · rw [if_neg hv]
    push_neg at hv
    constructor
    · intro hne
      constructor
      · intro u _
        exact ⟨fsRead_write _ _ _, hv hne⟩
      · intro e he
        dsimp only at he
        exact nomatch he
    · intro _
      exact ⟨rfl, fsRead_write _ _ _⟩

theorem c3_library_sha1_witness :
    fsRead (download_library (fun _ => "aa") (.success ⟨200, [1, 2]⟩) "/libs"
        ⟨"org/x/x.jar", "aa", 2, "u"⟩ []).2 ("/libs" ++ "/" ++ "org/x/x.jar")
        = some [1, 2] ∧ (fun _ : Bytes => "aa") [1, 2] = "aa" :=
  ((c3_library_sha1 (fun _ => "aa") ⟨200, [1, 2]⟩ "/libs"
      ⟨"org/x/x.jar", "aa", 2, "u"⟩ []).1 (by decide)).1 () rfl

/-- C4 (amended): the basic fetch performs one GET and fails with a
`network` error on transport failure; on any response — regardless of its
HTTP status — the body is written to the destination.  (The spec's
`HttpStatus(code)` failure on non-2xx does not exist in this path; see
the counterexample.) -/
theorem c4_fetch_status_ignored (fetch : FetchResult) (dest : String) (fs : FileStore) :
    (∀ m, fetch = .transportError m →
      download_file fetch dest fs = (.error (.network m), fs)) ∧
    (∀ resp, fetch = .success resp →
      download_file fetch dest fs = (.ok (), fsWrite fs dest resp.body)) := by
  constructor
  · rintro m rfl
    rfl
  · rintro resp rfl
    rfl

theorem c4_fetch_status_ignored_witness :
    download_file (.success ⟨404, [7]⟩) "/f" [] = (.ok (), fsWrite [] "/f" [7]) :=
  (c4_fetch_status_ignored (.success ⟨404, [7]⟩) "/f" []).2 ⟨404, [7]⟩ rfl

/-- C4 counterexample: a 404 response is not rejected — `download_file`
returns success and its body is written to the destination file. -/
theorem c4_http_status_cex :
    ¬(200 ≤ 404 ∧ 404 < 300) ∧
    (download_file (.success ⟨404, [7]⟩) "/f" []).1 = .ok () ∧
    fsRead (download_file (.success ⟨404, [7]⟩) "/f" []).2 "/f" = some [7] :=
  ⟨by decide, rfl, by decide⟩

theorem convert_library_sha1_empty (fl : FabricLibrary) :
    ∀ d a2, (convert_library fl).downloads = some d → d.artifact = some a2 →
      a2.sha1 = "" := by
  intro d a2 hd ha
  revert hd
  unfold convert_library
  cases splitOnChar fl.name ':' with
  | nil => intro hd; exact nomatch hd
  | cons g rest =>
    cases rest with
    | nil => intro hd; exact nomatch hd
    | cons ar rest2 =>
      cases rest2 with
      | nil => intro hd; exact nomatch hd
      | cons v rest3 =>
        intro hd
        simp only [Option.map_some', Option.some.injEq] at hd
        subst hd
        simp only [Option.some.injEq] at ha
        subst ha
        rfl

/-- C5 (amended): the Fabric merge takes the profile's main class; its
library list is the vanilla libraries whose `group:artifact` key does not
collide with a profile key, followed by all converted profile libraries;
every converted profile artifact has an empty `sha1`; and no retained
vanilla library shares a `group:artifact` key with any profile library.
(Deduplication inside the profile list itself does not happen; see the
counterexample.) -/
theorem c5_fabric_merge (vanilla : VersionDetails) (profile : FabricProfile) :
    (merge_version_details vanilla profile).main_class = profile.main_class ∧
    (merge_version_details vanilla profile).libraries =
      vanilla.libraries.filter
        (keepVanillaLib ((convert_libraries profile.libraries).filterMap
          fun l => groupArtifactKey l.name)) ++ convert_libraries profile.libraries ∧
    (∀ l ∈ convert_libraries profile.libraries, ∀ d a2,
      l.downloads = some d → d.artifact = some a2 → a2.sha1 = "") ∧
    (∀ lv ∈ vanilla.libraries.filter
        (keepVanillaLib ((convert_libraries profile.libraries).filterMap
          fun l => groupArtifactKey l.name)),
      ∀ lf ∈ convert_libraries profile.libraries, ∀ k,
        groupArtifactKey lv.name = some k → groupArtifactKey lf.name ≠ some k) := by
  refine ⟨rfl, rfl, ?_, ?_⟩
  · intro l hl
    obtain ⟨fl, _, rfl⟩ := List.mem_map.mp hl
    exact convert_library_sha1_empty fl
  · intro lv hlv lf hlf k hk hk2
    have hkeep := (List.mem_filter.mp hlv).2
    rw [keepVanillaLib, hk] at hkeep
    dsimp only at hkeep
    have hmem : k ∈ (convert_libraries profile.libraries).filterMap
        fun l => groupArtifactKey l.name :=
      List.mem_filterMap.mpr ⟨lf, hlf, hk2⟩
    have hcont : ((convert_libraries profile.libraries).filterMap
        fun l => groupArtifactKey l.name).contains k = true :=
      List.elem_iff.mpr hmem
    rw [hcont] at hkeep
    exact nomatch hkeep

theorem c5_fabric_merge_witness :
    groupArtifactKey (convert_library ⟨"a:b:1.0", none⟩).name ≠ some "x:y" :=
  (c5_fabric_merge
      ⟨"1.20.1", "release", "mc.Main", none, none,
        [⟨"x:y:1", none, none, none, none, none⟩],
        ⟨"5", "", 0, none, ""⟩, ⟨none, none⟩, none, none⟩
      ⟨"fabric", "1.20.1", "", "", "release", "net.fabricmc.Main", none,
        [⟨"a:b:1.0", none⟩]⟩).2.2.2
    ⟨"x:y:1", none, none, none, none, none⟩ (by decide)
    (convert_library ⟨"a:b:1.0", none⟩) (by decide)
    "x:y" (by decide)

/-- C5 counterexample: a profile carrying two libraries with the same
`group:artifact` key (`a:b`) yields a merged descriptor with two
libraries of that key, so the merge does not guarantee key uniqueness. -/
theorem c5_duplicate_key_cex :
    ((merge_version_details
        ⟨"1.20.1", "release", "mc.Main", none, none, [],
          ⟨"5", "", 0, none, ""⟩, ⟨none, none⟩, none, none⟩
        ⟨"fabric", "1.20.1", "", "", "release", "net.fabricmc.Main", none,
          [⟨"a:b:1.0", none⟩, ⟨"a:b:2.0", none⟩]⟩).libraries.map
      fun l => groupArtifactKey l.name) = [some "a:b", some "a:b"] := by
  decide

theorem download_library_fst (sha1fn : Bytes → String) (fetch : FetchResult)
    (libraries_dir : String) (a : Artifact) (fs : FileStore) :
    (download_library sha1fn fetch libraries_dir a fs).1 =
      library_job_result sha1fn fetch libraries_dir a := by
  cases fetch with
  | transportError m => rfl
  | success resp =>
    by_cases hc : a.sha1 ≠ "" ∧ sha1fn resp.body ≠ a.sha1 <;>
      simp [download_library, library_job_result, hc]

/-- C6: the asset bulk download returns success whenever it returns at
all, regardless of per-job failures; a zero-sized asset is written with
no SHA-1 verification and no error (for every hash function); and the
library bulk download returns an error whenever any single job fails. -/
theorem c6_bulk_error_asymmetry :
    (∀ (sha1fn : Bytes → String) (dir : String) (jobs : List (AssetObject × FetchResult))
        (fs : FileStore) (res : Except DlErr Unit) (fs2 : FileStore),
      asset_download_all sha1fn dir jobs fs = some (res, fs2) → res = .ok ()) ∧
    (∀ (sha1fn : Bytes → String) (dir : String) (o : AssetObject) (resp : HttpResponse)
        (fs : FileStore) (pre : String),
      o.size = 0 → slice2 o.hash = some pre →
      asset_job_run sha1fn (.success resp) dir o fs =
        some (.ok (), fsWrite fs (dir ++ "/" ++ pre ++ "/" ++ o.hash) resp.body)) ∧
    (∀ (sha1fn : Bytes → String) (dir : String) (jobs : List (Artifact × FetchResult))
        (fs : FileStore),
      (∃ j ∈ jobs, ∃ e, library_job_result sha1fn j.2 dir j.1 = .error e) →
      ∃ e2, (library_download_all sha1fn dir jobs fs).1 = .error e2) := by
  refine ⟨?_, ?_, ?_⟩
  · intro sha1fn dir jobs
    induction jobs with
    | nil =>
      intro fs res fs2 h
      simp only [asset_download_all, Option.some.injEq, Prod.mk.injEq] at h
      exact h.1.symm
    | cons j rest ih =>
      intro fs res fs2 h
      obtain ⟨o, fetch⟩ := j
      rw [asset_download_all] at h
      cases hr : asset_job_run sha1fn fetch dir o fs with
      | none => rw [hr] at h; exact nomatch h
      | some p => rw [hr] at h; exact ih p.2 res fs2 h
  · intro sha1fn dir o resp fs pre h0 hpre
    rw [asset_job_run, hpre]
    simp [h0]
  · intro sha1fn dir jobs
    induction jobs with
    | nil =>
      intro fs h
      obtain ⟨j, hj, _⟩ := h
      exact absurd hj (List.not_mem_nil j)
    | cons j rest ih =>
      intro fs h
      obtain ⟨a, fetch⟩ := j
      rw [library_download_all]
      cases hr : (download_library sha1fn fetch dir a fs).1 with
      | error e => exact ⟨e, rfl⟩
      | ok u =>
        rcases h with ⟨j2, hj2, e2, he2⟩
        rcases List.mem_cons.mp hj2 with rfl | hj2r
        · rw [download_library_fst] at hr
          rw [he2] at hr
          exact nomatch hr
        · obtain ⟨e3, he3⟩ :=
            ih (download_library sha1fn fetch dir a fs).2 ⟨j2, hj2r, e2, he2⟩
          exact ⟨e3, he3⟩

theorem c6_bulk_error_asymmetry_witness :
    ((Except.ok () : Except DlErr Unit) = .ok ()) ∧
    asset_job_run (fun _ => "zz") (.success ⟨200, [9]⟩) "/obj" ⟨"ab12", 0⟩ []
      = some (.ok (), fsWrite [] ("/obj" ++ "/" ++ "ab" ++ "/" ++ "ab12") [9]) ∧
    ∃ e2, (library_download_all (fun _ => "zz") "/libs"
        [(⟨"p.jar", "aa", 1, "u"⟩, .transportError "down")] []).1 = .error e2 := by
  refine ⟨?_, ?_, ?_⟩
  · exact c6_bulk_error_asymmetry.1 (fun _ => "zz") "/obj"
      [(⟨"ab12", 1⟩, .transportError "down")] [] (.ok ()) [] rfl
  · exact c6_bulk_error_asymmetry.2.1 (fun _ => "zz") "/obj" ⟨"ab12", 0⟩ ⟨200, [9]⟩ [] "ab"
      rfl (by decide)
  · refine c6_bulk_error_asymmetry.2.2 (fun _ => "zz") "/libs"
      [(⟨"p.jar", "aa", 1, "u"⟩, .transportError "down")] [] ?_
    exact ⟨(⟨"p.jar", "aa", 1, "u"⟩, .transportError "down"), by decide,
      .network "down", rfl⟩

theorem isPrefixOf_length_eq_unique {α : Type} [DecidableEq α] :
    ∀ (p : List α) (q l : List α), p.isPrefixOf l = true → q.isPrefixOf l = true →
      p.length = q.length → p = q := by
  intro p
  induction p with
  | nil =>
    intro q l _ _ hlen
    cases q with
    | nil => rfl
    | cons b q2 => exact nomatch hlen
  | cons a p2 ih =>
    intro q l hp hq hlen
    cases l with
    | nil => exact nomatch hp
    | cons c l2 =>
      cases q with
      | nil => exact nomatch hlen
      | cons b q2 =>
        simp only [List.isPrefixOf_cons₂, Bool.and_eq_true, beq_iff_eq] at hp hq
        simp only [List.length_cons, Nat.add_right_cancel_iff] at hlen
        rw [hp.1, hq.1, ih q2 l2 hp.2 hq.2 hlen]

theorem strStartsWith_false_of_other (mc p q : String)
    (hp : strStartsWith mc p = true) (hlen : p.data.length = q.data.length)
    (hne : p.data ≠ q.data) : ¬strStartsWith mc q = true := fun hq =>
  hne (isPrefixOf_length_eq_unique p.data q.data mc.data hp hq hlen)

theorem get_required_version_eq (mc : String) :
    get_required_version mc =
      if strStartsWith mc "1.21" = true then 21
      else if strStartsWith mc "1.20" = true then 17
      else if strStartsWith mc "1.19" = true then 17
      else if strStartsWith mc "1.18" = true then 17
      else if strStartsWith mc "1.17" = true then 17
      else if strStartsWith mc "1.16" = true then 8
      else 8 := rfl

/-- C7 (amended): the required Java major version is computed by prefix
match against the static table — `1.21*` gives 21; `1.20*`, `1.19*`,
`1.18*`, `1.17*` give 17; `1.16*` gives 8; anything else gives 8 — and
the launch pipeline's Java-acquisition stage depends only on the
instance's Minecraft version, never on the descriptor.  (The descriptor's
`java_version.major_version` does not override the table there; see the
counterexample.) -/
theorem c7_java_version_table (mc : String) :
    (strStartsWith mc "1.21" = true → get_required_version mc = 21) ∧
    ((strStartsWith mc "1.20" = true ∨ strStartsWith mc "1.19" = true ∨
      strStartsWith mc "1.18" = true ∨ strStartsWith mc "1.17" = true) →
      get_required_version mc = 17) ∧
    (strStartsWith mc "1.16" = true → get_required_version mc = 8) ∧
    ((strStartsWith mc "1.21" = false ∧ strStartsWith mc "1.20" = false ∧
      strStartsWith mc "1.19" = false ∧ strStartsWith mc "1.18" = false ∧
      strStartsWith mc "1.17" = false ∧ strStartsWith mc "1.16" = false) →
      get_required_version mc = 8) ∧
    (∀ (inst : InstanceInfo) (det det2 : VersionDetails),
      launch_required_java inst det = get_required_version inst.version ∧
      launch_required_java inst det = launch_required_java inst det2) := by
  refine ⟨?_, ?_, ?_, ?_, fun inst det det2 => ⟨rfl, rfl⟩⟩
  · intro h
    rw [get_required_version_eq, if_pos h]
  · intro h
    rw [get_required_version_eq]
    rcases h with h20 | h19 | h18 | h17
    · rw [if_neg (strStartsWith_false_of_other mc "1.20" "1.21" h20 (by decide) (by decide)),
        if_pos h20]
    · rw [if_neg (strStartsWith_false_of_other mc "1.19" "1.21" h19 (by decide) (by decide)),
        if_neg (strStartsWith_false_of_other mc "1.19" "1.20" h19 (by decide) (by decide)),
        if_pos h19]
    · rw [if_neg (strStartsWith_false_of_other mc "1.18" "1.21" h18 (by decide) (by decide)),
        if_neg (strStartsWith_false_of_other mc "1.18" "1.20" h18 (by decide) (by decide)),
        if_neg (strStartsWith_false_of_other mc "1.18" "1.19" h18 (by decide) (by decide)),
        if_pos h18]
    · rw [if_neg (strStartsWith_false_of_other mc "1.17" "1.21" h17 (by decide) (by decide)),
        if_neg (strStartsWith_false_of_other mc "1.17" "1.20" h17 (by decide) (by decide)),
        if_neg (strStartsWith_false_of_other mc "1.17" "1.19" h17 (by decide) (by decide)),
        if_neg (strStartsWith_false_of_other mc "1.17" "1.18" h17 (by decide) (by decide)),
        if_pos h17]
  · intro h
    rw [get_required_version_eq,
      if_neg (strStartsWith_false_of_other mc "1.16" "1.21" h (by decide) (by decide)),
      if_neg (strStartsWith_false_of_other mc "1.16" "1.20" h (by decide) (by decide)),
      if_neg (strStartsWith_false_of_other mc "1.16" "1.19" h (by decide) (by decide)),
      if_neg (strStartsWith_false_of_other mc "1.16" "1.18" h (by decide) (by decide)),
      if_neg (strStartsWith_false_of_other mc "1.16" "1.17" h (by decide) (by decide)),
      if_pos h]
  · intro h
    rw [get_required_version_eq]
    simp only [h.1, h.2.1, h.2.2.1, h.2.2.2.1, h.2.2.2.2.1, h.2.2.2.2.2,
      Bool.false_eq_true, if_false]

theorem c7_java_version_table_witness :
    get_required_version "1.20.1" = 17 :=
  (c7_java_version_table "1.20.1").2.1 (Or.inl (by decide))

/-- C7 counterexample: with a descriptor carrying
`java_version.major_version = 16` for Minecraft 1.20.1, the pipeline's
Java-acquisition stage still computes 17 from the table, not 16. -/
theorem c7_descriptor_override_cex :
    launch_required_java ⟨"i", "1.20.1"⟩
        ⟨"1.20.1", "release", "m", none, none, [],
          ⟨"5", "", 0, none, ""⟩, ⟨none, none⟩,
          some ⟨"java-runtime-gamma", 16⟩, none⟩ = 17 ∧
    ¬launch_required_java ⟨"i", "1.20.1"⟩
        ⟨"1.20.1", "release", "m", none, none, [],
          ⟨"5", "", 0, none, ""⟩, ⟨none, none⟩,
          some ⟨"java-runtime-gamma", 16⟩, none⟩ = 16 := by
  constructor
  · decide
  · decide

/-- C8 (amended): each poll first sleeps the interval;
`authorization_pending` (and a non-2xx body without an `error` field)
continue, `slow_down` sleeps 5 extra seconds and continues,
`expired_token` fails with device-code-expired, `authorization_declined`
fails with user-declined, any other error fails terminally, and a 2xx
token response succeeds.  (The loop never checks `expires_in`, so
termination within the ticket lifetime is not guaranteed; see the
counterexample.) -/
theorem c8_polling_step_behavior (interval : Nat) (rest : List PollResp) (t : Nat) :
    poll_for_token interval (.failure (some "authorization_pending") :: rest) t =
      poll_for_token interval rest (t + interval) ∧
    poll_for_token interval (.failure (some "slow_down") :: rest) t =
      poll_for_token interval rest (t + interval + 5) ∧
    poll_for_token interval (.failure (some "expired_token") :: rest) t =
      (some (.error .deviceCodeExpired), t + interval) ∧
    poll_for_token interval (.failure (some "authorization_declined") :: rest) t =
      (some (.error .userDeclined), t + interval) ∧
    poll_for_token interval (.failure none :: rest) t =
      poll_for_token interval rest (t + interval) ∧
    (∀ e, e ≠ "authorization_pending" → e ≠ "slow_down" → e ≠ "expired_token" →
      e ≠ "authorization_declined" →
      poll_for_token interval (.failure (some e) :: rest) t =
        (some (.error (.authError e)), t + interval)) ∧
    (∀ tok, poll_for_token interval (.success tok :: rest) t =
      (some (.ok tok), t + interval)) := by
  refine ⟨rfl, rfl, rfl, rfl, rfl, ?_, fun tok => rfl⟩
  intro e h1 h2 h3 h4
  rw [poll_for_token]
  simp only [if_neg h1, if_neg h2, if_neg h3, if_neg h4]

theorem c8_polling_step_behavior_witness :
    poll_for_token 5 [.failure (some "invalid_grant")] 0 =
      (some (.error (.authError "invalid_grant")), 5) := by
  have h := (c8_polling_step_behavior 5 [] 0).2.2.2.2.2.1 "invalid_grant"
    (by decide) (by decide) (by decide) (by decide)
  simpa using h

/-- C8 counterexample: with poll interval 100 and a server that keeps
answering `authorization_pending`, the loop is still polling after 1000
elapsed seconds — beyond a ticket lifetime of 900 seconds — so it does
not terminate within `expires_in` seconds of issuance. -/
theorem c8_no_expiry_check_cex :
    (poll_for_token 100 (List.replicate 10 (PollResp.failure
        (some "authorization_pending"))) 0).1.isNone = true ∧
    (poll_for_token 100 (List.replicate 10 (PollResp.failure
        (some "authorization_pending"))) 0).2 = 1000 ∧ 900 < 1000 := by
  refine ⟨?_, ?_, by decide⟩ <;> decide

theorem filter_flag_nil (rest : List Account) (u : String)
    (h : u ∉ rest.map fun a => a.profile.id) :
    ((rest.map fun a => { a with is_active := a.profile.id == u }).filter
      fun a => a.is_active) = [] := by
  rw [List.filter_eq_nil_iff]
  intro x hx
  obtain ⟨y, hy, rfl⟩ := List.mem_map.mp hx
  simp only [Bool.not_eq_true, beq_eq_false_iff_ne]
  intro hcontra
  exact h (List.mem_map.mpr ⟨y, hy, hcontra⟩)

theorem flagged_count_le_one (l : List Account) (u : String)
    (h : (l.map fun a => a.profile.id).Nodup) :
    ((l.map fun a => { a with is_active := a.profile.id == u }).filter
      fun a => a.is_active).length ≤ 1 := by
  induction l with
  | nil => simp
  | cons a rest ih =>
    simp only [List.map_cons, List.nodup_cons] at h
    obtain ⟨hnotin, hnodup⟩ := h
    by_cases hu : a.profile.id = u
    · have hzero := filter_flag_nil rest u (hu ▸ hnotin)
      simp [List.filter_cons, hu, hzero]
    · simpa [List.filter_cons, hu] using ih hnodup

theorem updateFirst_flags (acc : Account) (l : List Account) :
    ((updateFirstAccount acc l).filter fun a => a.is_active).length =
      (l.filter fun a => a.is_active).length := by
  induction l with
  | nil => rfl
  | cons a rest ih =>
    by_cases hc : a.profile.id = acc.profile.id
    · by_cases ha : a.is_active = true <;>
        simp [updateFirstAccount, hc, List.filter_cons, ha]
    · by_cases ha : a.is_active = true <;>
        simp [updateFirstAccount, hc, List.filter_cons, ha, ih]

theorem updateFirst_ids (acc : Account) (l : List Account) :
    (updateFirstAccount acc l).map (fun a => a.profile.id) =
      l.map fun a => a.profile.id := by
  induction l with
  | nil => rfl
  | cons a rest ih =>
    by_cases hc : a.profile.id = acc.profile.id
    · simp [updateFirstAccount, hc]
    · simp [updateFirstAccount, hc, ih]

/-- C9 (amended): provided the loaded accounts have pairwise-distinct
profile ids and at most one is flagged active, every account-manager
operation (`set_active`, `complete_login`, `refresh_active`,
`remove_account`, `logout_all`) leaves at most one account flagged
active.  (Distinctness of ids is necessary; see the counterexample.) -/
theorem c9_single_active_invariant (d : AccountsData)
    (hids : (d.accounts.map fun a => a.profile.id).Nodup)
    (hinv : countActive d ≤ 1) :
    (∀ uuid d2, set_active uuid d = .ok d2 → countActive d2 ≤ 1) ∧
    (∀ acc, countActive (complete_login acc d) ≤ 1) ∧
    (∀ refreshed d2, refresh_active refreshed d = .ok d2 → countActive d2 ≤ 1) ∧
    (∀ uuid d2, remove_account uuid d = .ok d2 → countActive d2 ≤ 1) ∧
    countActive (logout_all d) ≤ 1 := by
  refine ⟨?_, ?_, ?_, ?_, Nat.zero_le 1⟩
  · intro uuid d2 h
    by_cases hc : d.accounts.any fun a => a.profile.id == uuid
    · rw [set_active, if_pos hc] at h
      cases h
      exact flagged_count_le_one d.accounts uuid hids
    · rw [set_active, if_neg hc] at h
      exact nomatch h
  · intro acc
    rw [complete_login]
    by_cases hc : d.accounts.any fun a => a.profile.id == acc.profile.id
    · rw [if_pos hc]
      refine flagged_count_le_one _ _ ?_
      rw [updateFirst_ids]
      exact hids
    · rw [if_neg hc]
      refine flagged_count_le_one _ _ ?_
      rw [List.map_append]
      refine List.Nodup.append hids (List.nodup_singleton _) ?_
      intro x hx hx2
      simp only [List.map_cons, List.map_nil, List.mem_singleton] at hx2
      subst hx2
      rw [List.any_eq_true] at hc
      refine hc ?_
      obtain ⟨y, hy, hyid⟩ := List.mem_map.mp hx
      exact ⟨y, hy, by simp [hyid]⟩
  · intro refreshed d2 h
    rw [refresh_active] at h
    cases hact : active_account d with
    | none => rw [hact] at h; exact nomatch h
    | some a0 =>
      rw [hact] at h
      cases h
      show ((updateFirstAccount refreshed d.accounts).filter
        fun a => a.is_active).length ≤ 1
      rw [updateFirst_flags]
      exact hinv
  · intro uuid d2 h
    rw [remove_account] at h
    by_cases hlen : (d.accounts.filter fun a => !(a.profile.id == uuid)).length =
        d.accounts.length
    · rw [if_pos hlen] at h
      exact nomatch h
    · rw [if_neg hlen] at h
      have hsub : (d.accounts.filter fun a => !(a.profile.id == uuid)).Sublist
          d.accounts := List.filter_sublist _
      by_cases hactive : d.active_uuid = some uuid
      · rw [if_pos hactive] at h
        cases hhead : (d.accounts.filter fun a => !(a.profile.id == uuid)).head? with
        | none =>
          rw [hhead] at h
          cases h
          show ((d.accounts.filter fun a => !(a.profile.id == uuid)).filter
            fun a => a.is_active).length ≤ 1
          have : (d.accounts.filter fun a => !(a.profile.id == uuid)) = [] :=
            List.head?_eq_none_iff.mp hhead
          simp [this]
        | some afirst =>
          rw [hhead] at h
          cases h
          simp only [countActive, Option.map_some']
          exact flagged_count_le_one _ _ (hids.sublist (hsub.map _))
      · rw [if_neg hactive] at h
        cases h
        show ((d.accounts.filter fun a => !(a.profile.id == uuid)).filter
          fun a => a.is_active).length ≤ 1
        calc ((d.accounts.filter fun a => !(a.profile.id == uuid)).filter
            fun a => a.is_active).length
            ≤ (d.accounts.filter fun a => a.is_active).length :=
              (hsub.filter _).length_le
          _ ≤ 1 := hinv

theorem c9_single_active_invariant_witness :
    countActive ⟨[⟨⟨"u", "A"⟩, "", "", true⟩], some "u"⟩ ≤ 1 :=
  (c9_single_active_invariant ⟨[⟨⟨"u", "A"⟩, "", "", false⟩], none⟩
      (by decide) (by decide)).1 "u"
    ⟨[⟨⟨"u", "A"⟩, "", "", true⟩], some "u"⟩ rfl

/-- C9 counterexample: a loaded state with two accounts sharing a profile
id and none active satisfies the claimed precondition, yet `set_active`
flags both active, violating the at-most-one-active invariant. -/
theorem c9_duplicate_uuid_cex :
    countActive ⟨[⟨⟨"u", "A"⟩, "", "", false⟩, ⟨⟨"u", "B"⟩, "", "", false⟩], none⟩ ≤ 1 ∧
    set_active "u" ⟨[⟨⟨"u", "A"⟩, "", "", false⟩, ⟨⟨"u", "B"⟩, "", "", false⟩], none⟩ =
      .ok ⟨[⟨⟨"u", "A"⟩, "", "", true⟩, ⟨⟨"u", "B"⟩, "", "", true⟩], some "u"⟩ ∧
    countActive ⟨[⟨⟨"u", "A"⟩, "", "", true⟩, ⟨⟨"u", "B"⟩, "", "", true⟩], some "u"⟩ = 2 :=
  ⟨by decide, rfl, by decide⟩

/-- C10: the asset path and URL computations (and the download job that
repeats the same slice) are defined exactly when the object's hash has at
least two characters; for a shorter hash they are undefined (the
unchecked `&hash[..2]` slice panics) rather than returning an error. -/
theorem c10_hash_slice_totality (o : AssetObject) :
    (o.getPath.isSome = decide (2 ≤ o.hash.length)) ∧
    (o.getUrl.isSome = decide (2 ≤ o.hash.length)) ∧
    (∀ assets_dir, (get_object_path assets_dir o).isSome =
      decide (2 ≤ o.hash.length)) ∧
    (∀ (sha1fn : Bytes → String) (fetch : FetchResult) (dir : String) (fs : FileStore),
      (asset_job_run sha1fn fetch dir o fs).isSome = decide (2 ≤ o.hash.length)) := by
  by_cases h : 2 ≤ o.hash.length
  · have hs : slice2 o.hash = some (String.mk (o.hash.data.take 2)) := by
      rw [slice2, if_pos h]
    refine ⟨by simp [AssetObject.getPath, hs, h],
      by simp [AssetObject.getUrl, hs, h],
      fun assets_dir => by simp [get_object_path, AssetObject.getPath, hs, h],
      fun sha1fn fetch dir fs => ?_⟩
    simp only [asset_job_run, hs]
    cases fetch with
    | transportError m => simp [h]
    | success resp =>
      by_cases hsize : o.size > 0
      · by_cases hsha : sha1fn resp.body ≠ o.hash <;> simp [hsize, hsha, h]
      · simp [hsize, h]
  · have hs : slice2 o.hash = none := by
      rw [slice2, if_neg h]
    exact ⟨by simp [AssetObject.getPath, hs, h],
      by simp [AssetObject.getUrl, hs, h],
      fun assets_dir => by simp [get_object_path, AssetObject.getPath, hs, h],
      fun sha1fn fetch dir fs => by simp [asset_job_run, hs, h]⟩

end GLauncher
